import Mathlib

/-!
Verification model of the ecoroofs location importer
(src/ecoroofs/locations/importer.py).

The importer reads a CSV file of roof-survey records, normalizes the
header names, interns the distinct categorical values of the
building-use and watershed columns into reference tables, and
bulk-inserts Location records.  This file is a shallow embedding of
that pipeline: Python strings become Lean String, CSV rows become the
Row structure, the Django store becomes the Store structure, console
output becomes an explicit list of emitted lines, and exceptions
become an explicit error value that aborts the remaining steps.

Character-level operations (lower-casing, the regexes of
clean_field_name, str.title, str.islower, str.isidentifier, str.strip)
are modelled at ASCII level, which covers the code points the regex
classes of the source refer to.
-/

/-- Python ASCII whitespace, the characters matched by the regex
class backslash-s and stripped by str.strip. -/
def isPySpace (c : Char) : Bool :=
  c.toNat = 32 || c.toNat = 9 || c.toNat = 10 || c.toNat = 13 || c.toNat = 11 || c.toNat = 12

/-- Characters kept by the first regex of clean_field_name, which
removes everything outside the class a-z, 0-9, underscore and
whitespace. -/
def keepChar (c : Char) : Bool :=
  (97 ≤ c.toNat && c.toNat ≤ 122) || (48 ≤ c.toNat && c.toNat ≤ 57) ||
    c.toNat = 95 || isPySpace c

/-- The second regex of clean_field_name: collapse every maximal run
of whitespace into a single underscore.  The boolean records whether
the previous character was part of a whitespace run. -/
def collapseWsAux : Bool → List Char → List Char
  | _, [] => []
  | inRun, c :: rest =>
    if isPySpace c then
      if inRun then collapseWsAux true rest
      else '_' :: collapseWsAux true rest
    else c :: collapseWsAux false rest

/-- CSVDictReader.clean_field_name: lower-case, strip everything that
is not a lower-case letter, digit, underscore or whitespace, then
collapse whitespace runs to single underscores. -/
def clean_field_name (name : String) : String :=
  ⟨collapseWsAux false ((name.data.map Char.toLower).filter keepChar)⟩

/-- FIELD_NAME_MAP of the importer module: CSV header to model field
name.  An empty string marks a header without a model field. -/
def FIELD_NAME_MAP : List (String × String) :=
  [("Name in BES Reports", "name"),
   ("Project", ""),
   ("Address", ""),
   ("Address (Obscured)", ""),
   ("Address_Clean", ""),
   ("Watershed", ""),
   ("Building Use", ""),
   ("Solar over Ecoroof", ""),
   ("Type", ""),
   ("Year", "year_built"),
   ("Size (sf)", "square_footage"),
   ("Number", ""),
   ("Latitude(Non Obscured)", "latitude"),
   ("Longitude (Non Obscured)", "longitude"),
   ("Confidence (Non Obscured)", "confidence"),
   ("Latitude", "latitude_obscured"),
   ("Longitude", "longitude_obscured"),
   ("Confidence", "confidence_obscured"),
   ("Depth", ""),
   ("Cost", ""),
   ("Composition", ""),
   ("Irrigation", ""),
   ("Drainage", ""),
   ("Plants", ""),
   ("Maintenance", ""),
   ("Contractor", "")]

/-- The per-header transform of CSVDictReader.fieldnames:
FIELD_NAME_MAP.get(name) or clean_field_name(name).  A lookup result
that is the empty string is falsy in Python, so it falls through to
clean_field_name. -/
def normalizeFieldName (name : String) : String :=
  match FIELD_NAME_MAP.lookup name with
  | some v => if v = "" then clean_field_name name else v
  | none => clean_field_name name

/-- Python str.isidentifier restricted to ASCII: nonempty, first
character a letter or underscore, remaining characters letters,
digits or underscores. -/
def isidentifier (s : String) : Bool :=
  match s.data with
  | [] => false
  | c :: rest =>
    (c.isAlpha || c = '_') && rest.all (fun d => d.isAlphanum || d = '_')

/-- Whether an Except value is a success. -/
def exceptIsOk {ε α : Type} : Except ε α → Bool
  | .ok _ => true
  | .error _ => false

/-- Equality of Except values is decidable when both components have
decidable equality; used to evaluate the model on concrete inputs. -/
instance {ε α : Type} [DecidableEq ε] [DecidableEq α] : DecidableEq (Except ε α)
  | .ok a, .ok b =>
    if h : a = b then .isTrue (by rw [h]) else .isFalse (by simp [h])
  | .ok _, .error _ => .isFalse (by simp)
  | .error _, .ok _ => .isFalse (by simp)
  | .error e, .error f =>
    if h : e = f then .isTrue (by rw [h]) else .isFalse (by simp [h])

/-- CSVDictReader.fieldnames: map every raw header through
normalizeFieldName, then assert that every resulting name is a valid
identifier; the first invalid name aborts the run with an
AssertionError, modelled as the error case. -/
def fieldnames (headers : List String) : Except String (List String) :=
  let names := headers.map normalizeFieldName
  match names.find? (fun n => !(isidentifier n)) with
  | some n => .error (n ++ " must be a valid identifier")
  | none => .ok names

/-- Python str.title at ASCII level: an alphabetic character is
upper-cased when the previous character was not alphabetic and
lower-cased otherwise; other characters are kept and reset the word
state. -/
def titleAux : Bool → List Char → List Char
  | _, [] => []
  | prevCased, c :: rest =>
    if c.isAlpha then
      (if prevCased then c.toLower else c.toUpper) :: titleAux true rest
    else c :: titleAux false rest

/-- Python str.title. -/
def title (s : String) : String :=
  ⟨titleAux false s.data⟩

/-- Importer.normalize_name: title-case the value when its first
character is a lower-case letter, otherwise leave it unchanged.  The
Python source indexes name[0] and so raises on the empty string; the
model returns the empty string unchanged, and every theorem that
depends on this point carries a nonemptiness hypothesis. -/
def normalize_name (name : String) : String :=
  match name.data with
  | [] => name
  | c :: _ => if c.isLower then title name else name

/-- Python str.strip on a value: drop ASCII whitespace from both
ends. -/
def stripValue (s : String) : String :=
  ⟨((s.data.dropWhile isPySpace).reverse.dropWhile isPySpace).reverse⟩

/-- The value coercion of CSVDictReader.iter_rows: strip the cell,
and replace a blank result by null. -/
def coerceBlank (v : String) : Option String :=
  let s := stripValue v
  if s = "" then none else some s

/-- One decimal digit as a character, as rendered by Python str(i). -/
def digitCh (d : Nat) : Char :=
  match d with
  | 0 => '0' | 1 => '1' | 2 => '2' | 3 => '3' | 4 => '4'
  | 5 => '5' | 6 => '6' | 7 => '7' | 8 => '8' | _ => '9'

/-- Numeric value of a decimal digit character. -/
def chDigit (c : Char) : Nat := c.toNat - 48

/-- Decimal digits of a positive number, most significant first; the
fuel argument only drives the recursion and any fuel at least n
produces the full digit string. -/
def natToStrAux : Nat → Nat → List Char
  | 0, _ => []
  | fuel + 1, n => if n = 0 then [] else natToStrAux fuel (n / 10) ++ [digitCh (n % 10)]

/-- Python str(i) for a natural number: its decimal rendering. -/
def natToStr (n : Nat) : String :=
  if n = 0 then "0" else ⟨natToStrAux (n + 1) n⟩

/-- Left fold reading a digit string back as a number; used to prove
that natToStr is injective. -/
def parseDigits (acc : Nat) : List Char → Nat
  | [] => acc
  | c :: cs => parseDigits (acc * 10 + chDigit c) cs

/-- Lexicographic comparison of char lists by code point, the order
Python uses to compare strings. -/
def charListLe : List Char → List Char → Bool
  | [], _ => true
  | _ :: _, [] => false
  | a :: as, b :: bs => if a < b then true else if b < a then false else charListLe as bs

/-- Python string comparison. -/
def strLeB (a b : String) : Bool := charListLe a.data b.data

/-- Insert a string into a sorted list. -/
def insertStr (x : String) : List String → List String
  | [] => [x]
  | y :: ys => if strLeB x y then x :: y :: ys else y :: insertStr x ys

/-- Python sorted() on strings, modelled by insertion sort over the
code-point order. -/
def sortStrings (l : List String) : List String :=
  l.foldr insertStr []

/-- The set pipeline of Importer.column_to_table: the set of raw
column cells, minus nulls, mapped through normalize_name, as a
duplicate-free list. -/
def internValues (vals : List (Option String)) : List String :=
  ((vals.dedup.filterMap id).map normalize_name).dedup

/-- The records actually built by column_to_table: the interned
values that are truthy, that is nonempty. -/
def internRecords (vals : List (Option String)) : List String :=
  (internValues vals).filter (fun v => v ≠ "")

/-- One line of console output.  Lines routed through Importer.print
are progress lines; lines emitted with printer.warning on stderr are
warning lines. -/
inductive Line where
  | progress (s : String)
  | warning (s : String)
deriving DecidableEq

/-- Whether a line is a stderr warning line. -/
def lineIsWarning : Line → Bool
  | .warning _ => true
  | .progress _ => false

/-- The textual effect of dry-run mode on a line produced by
Importer.print: the DRY RUN prefix; warning lines are not routed
through print and carry no prefix. -/
def markDry : Line → Line
  | .progress s => .progress ("[DRY RUN] " ++ s)
  | .warning s => .warning s

/-- The exceptions raised by Importer.choice.  The badChoice error
carries the list of available choices, which the Python message
interpolates. -/
inductive ImportError where
  | missingValue (field : String)
  | badChoice (value field : String) (choices : List String)
deriving DecidableEq

/-- A parsed CSV row restricted to the fields insert_locations
reads.  Every field is an optional trimmed string, as produced by
iter_rows. -/
structure Row where
  name : Option String
  project : Option String
  building_use : Option String
  watershed : Option String
  longitude : Option String
  latitude : Option String
deriving DecidableEq

/-- A Location record as built by insert_locations.  Records of the
categorical tables are identified by their name, so the building-use
and watershed references are stored as names. -/
structure Location where
  name : String
  point : String
  building_use : Option String
  watershed : Option String
  neighborhood : Option String
deriving DecidableEq

/-- The relational store: one list of records per table touched by
the importer, plus the neighborhood count read by run(). -/
structure Store where
  locations : List Location
  building_uses : List String
  watersheds : List String
  neighborhoods : Nat
deriving DecidableEq

/-- Importer.print: suppressed entirely when quiet, prefixed with
[DRY RUN] in dry-run mode. -/
def pline (quiet dry_run : Bool) (s : String) : List Line :=
  if quiet then [] else [.progress ((if dry_run then "[DRY RUN] " else "") ++ s)]

/-- Python str() of an optional value interpolated into a format
string: None renders as the text None. -/
def optStr : Option String → String
  | none => "None"
  | some s => s

/-- Python row['name'] or row['project']: the first operand wins
unless it is None or the empty string. -/
def orFalsy : Option String → Option String → Option String
  | some s, y => if s = "" then y else some s
  | none, y => y

/-- The candidate name with numeric suffix i. -/
def candName (base : String) (i : Nat) : String :=
  base ++ "-" ++ natToStr i

/-- The while loop of the name de-duplication: while the current name
is taken, move to the next suffixed candidate.  The fuel bounds the
number of iterations; dedupName supplies enough fuel for the loop to
reach a free candidate, matching the unbounded Python loop. -/
def dedupLoop (names : List String) (base : String) : Nat → String → Nat → String
  | 0, name, _ => name
  | fuel + 1, name, i =>
    if name ∈ names then dedupLoop names base fuel (candName base i) (i + 1) else name

/-- Name de-duplication of insert_locations: start from the candidate
name and append -1, -2, and so on until the name is not yet used. -/
def dedupName (names : List String) (base : String) : String :=
  dedupLoop names base (names.length + 2) base 1

/-- Importer.choice: a null value is an error unless the field is
null-tolerant; otherwise the value is normalized and looked up among
the available choices, and a missing key is an error carrying the
available choices. -/
def choice (value : Option String) (field : String) (choices : List String)
    (null : Bool) : Except ImportError (Option String) :=
  match value with
  | none => if null then .ok none else .error (.missingValue field)
  | some v =>
    let nv := normalize_name v
    if nv ∈ choices then .ok (some nv) else .error (.badChoice nv field choices)

/-- The body of the per-row loop of insert_locations.  Given the
names already used, the accumulated locations and the row, it either
aborts with a choice error or returns the new used-name list, the new
location list and the console lines the row emitted.  The
missing-name message of the source interpolates the whole row; the
model keeps the fixed text. -/
def processRow (quiet dry_run : Bool) (resolve : String → Option String)
    (bus wss : List String) (names : List String) (locations : List Location)
    (row : Row) : Except ImportError (List String × List Location × List Line) :=
  match orFalsy row.name row.project with
  | none =>
    .ok (names, locations, pline quiet dry_run "Name (and project) not set for location; skipping")
  | some base =>
    let name := dedupName names base
    let names' := names ++ [name]
    match choice row.building_use "building_use" bus false with
    | .error e => .error e
    | .ok bu =>
      match choice row.watershed "watershed" wss true with
      | .error e => .error e
      | .ok ws =>
        let point := "POINT(" ++ optStr row.longitude ++ " " ++ optStr row.latitude ++ ")"
        if row.longitude = none ∨ row.latitude = none then
          .ok (names', locations,
            pline quiet dry_run
              ("Coordinates not set for location \"" ++ name ++ "\": " ++ point ++ "; skipping"))
        else
          .ok (names', locations ++ [⟨name, point, bu, ws, resolve point⟩], [])

/-- The row loop of insert_locations, accumulating used names, built
locations and output; the first choice error stops the loop. -/
def insertLoop (quiet dry_run : Bool) (resolve : String → Option String)
    (bus wss : List String) :
    List String → List Location → List Line → List Row →
    List String × List Location × List Line × Option ImportError
  | names, locations, out, [] => (names, locations, out, none)
  | names, locations, out, row :: rest =>
    match processRow quiet dry_run resolve bus wss names locations row with
    | .error e => (names, locations, out, some e)
    | .ok (names', locations', delta) =>
      insertLoop quiet dry_run resolve bus wss names' locations' (out ++ delta) rest

/-- Importer.insert_locations: build the name-to-record lookup
mappings from the live store, run the row loop, report the count and
bulk-create the locations unless in dry-run mode.  On a choice error
the store is untouched and the error propagates. -/
def insert_locations (quiet dry_run : Bool) (resolve : String → Option String)
    (data : List Row) (store : Store) : Store × List Line × Option ImportError :=
  match insertLoop quiet dry_run resolve store.building_uses store.watersheds [] [] [] data with
  | (_, _, out, some e) => (store, out, some e)
  | (_, locations, out, none) =>
    (if dry_run then store else { store with locations := store.locations ++ locations },
     out ++ pline quiet dry_run ("Creating " ++ natToStr locations.length ++ " locations..."),
     none)

/-- The per-value report lines of column_to_table. -/
def valueLines (quiet dry_run : Bool) : List String → List Line
  | [] => []
  | v :: vs => pline quiet dry_run ("    \"" ++ v ++ "\"") ++ valueLines quiet dry_run vs

/-- Importer.column_to_table: extract the distinct normalized values
of one column, report them, and bulk-insert one record per truthy
value into the target table unless in dry-run mode.  The table is
passed as a getter and setter on the store. -/
def column_to_table (quiet dry_run : Bool) (data : List Row) (col : Row → Option String)
    (modelName fromField : String) (getT : Store → List String)
    (setT : Store → List String → Store) (store : Store) : Store × List Line :=
  let values := internValues (data.map col)
  let records := internRecords (data.map col)
  let out :=
    pline quiet dry_run ("Extracting " ++ fromField ++ " values...")
    ++ pline quiet dry_run
        ("Found " ++ natToStr values.length ++ " distinct, non-empty " ++ fromField ++ " values:")
    ++ valueLines quiet dry_run (sortStrings values)
    ++ pline quiet dry_run
        ("Inserting " ++ natToStr records.length ++ " " ++ modelName ++ " records...")
  (if dry_run then store else setT store (getT store ++ records), out)

/-- Importer.do_overwrite: report and delete all Location and all
Watershed records; the deletions are skipped in dry-run mode. -/
def do_overwrite (quiet dry_run : Bool) (store : Store) : Store × List Line :=
  (if dry_run then store else { store with locations := [], watersheds := [] },
   pline quiet dry_run "Removing existing locations..."
     ++ pline quiet dry_run "Removing existing watersheds...")

/-- The prerequisite warning of Importer.run: when no neighborhoods
have been imported, a warning is printed to stderr regardless of the
quiet flag. -/
def neighborhoodWarning (store : Store) : List Line :=
  if store.neighborhoods = 0 then
    [.warning "WARNING: Neighborhoods have not been imported."]
  else []

/-- The overwrite-or-append step of Importer.run: with the overwrite
flag the Location and Watershed tables are cleared via do_overwrite;
otherwise, when locations already exist, two warnings are printed to
stderr regardless of the quiet flag (followed in the source by a
five-second pause, a pure delay with no state effect). -/
def overwriteStep (overwrite quiet dry_run : Bool) (store : Store) : Store × List Line :=
  if overwrite then do_overwrite quiet dry_run store
  else
    (store,
     if store.locations.length ≠ 0 then
       [.warning "Importing locations without removing existing records.",
        .warning "This will likely FAIL due to duplicate key violations."]
     else [])

/-- Importer.run over already-parsed rows: warn when the neighborhood
table is empty, apply the overwrite policy or warn about appending,
intern the building-use and watershed columns, then insert the
locations.  The result is the final store, the emitted lines and the
error that aborted the run, if any. -/
def runImporter (overwrite dry_run quiet : Bool) (resolve : String → Option String)
    (data : List Row) (store : Store) : Store × List Line × Option ImportError :=
  let out0 := neighborhoodWarning store
  let r1 := overwriteStep overwrite quiet dry_run store
  let r2 := column_to_table quiet dry_run data Row.building_use "BuildingUse" "building_use"
    Store.building_uses (fun s l => { s with building_uses := l }) r1.1
  let r3 := column_to_table quiet dry_run data Row.watershed "Watershed" "watershed"
    Store.watersheds (fun s l => { s with watersheds := l }) r2.1
  let r4 := insert_locations quiet dry_run resolve data r3.1
  (r4.1, out0 ++ r1.2 ++ r2.2 ++ r3.2 ++ r4.2.1, r4.2.2)

/-- Condition under which the categorical lookups of a row succeed
against the given tables: every present value, once normalized, is a
key of the corresponding mapping. -/
def tablesOKb (row : Row) (bus wss : List String) : Bool :=
  (match row.building_use with
   | none => true
   | some v => normalize_name v ∈ bus) &&
  (match row.watershed with
   | none => true
   | some v => normalize_name v ∈ wss)

/-- A resolver that finds no neighborhood, used for concrete runs. -/
def noResolve : String → Option String := fun _ => none

/-- A store holding one building-use record named Office and one
neighborhood. -/
def officeStore : Store := ⟨[], ["Office"], [], 1⟩

/-- A fully populated row named Roof A. -/
def roofRow : Row :=
  ⟨some "Roof A", none, some "Office", none, some "-122.6", some "45.5"⟩

/-- The same row with no coordinates. -/
def roofRowNoCoords : Row :=
  ⟨some "Roof A", none, some "Office", none, none, none⟩

/-- An empty store with no neighborhoods imported. -/
def bareStore : Store := ⟨[], [], [], 0⟩

/-- An empty store with one neighborhood imported. -/
def freshStore : Store := ⟨[], [], [], 1⟩

/-- A row with a name but a null building use. -/
def rowNoBU : Row := ⟨some "R", none, none, none, some "-122.6", some "45.5"⟩

/-- A row whose building-use value matches no record of an empty
building-use table. -/
def rowBadBU : Row := ⟨some "R", none, some "Office", none, some "-122.6", some "45.5"⟩

/-- A row with longitude present but latitude null. -/
def rowHalfCoords : Row := ⟨some "R", none, some "Office", none, some "-122.6", none⟩

theorem map_fix_of_mem {α : Type} (f : α → α) :
    ∀ l : List α, (∀ c ∈ l, f c = c) → l.map f = l := by
  intro l
  induction l with
  | nil => intro _; rfl
  | cons a rest ih =>
    intro h
    simp only [List.map_cons, h a (by simp), ih fun c hc => h c (by simp [hc])]

theorem collapse_chars :
    ∀ (l : List Char) (b : Bool), (∀ c ∈ l, keepChar c = true) →
      ∀ c ∈ collapseWsAux b l, keepChar c = true ∧ isPySpace c = false := by
  intro l
  induction l with
  | nil => intro b _ c hc; simp [collapseWsAux] at hc
  | cons a rest ih =>
    intro b h c hc
    have hrest : ∀ c ∈ rest, keepChar c = true := fun c hc => h c (by simp [hc])
    simp only [collapseWsAux] at hc
    by_cases ha : isPySpace a = true
    · rw [if_pos ha] at hc
      cases b with
      | true => exact ih true hrest c hc
      | false =>
        rcases List.mem_cons.mp hc with h1 | h1
        · subst h1; exact ⟨by decide, by decide⟩
        · exact ih true hrest c h1
    · rw [if_neg ha] at hc
      rcases List.mem_cons.mp hc with h1 | h1
      · rw [h1]; exact ⟨h a (by simp), by simpa using ha⟩
      · exact ih false hrest c h1

theorem toLower_fixed {c : Char} (h1 : keepChar c = true) (h2 : isPySpace c = false) :
    Char.toLower c = c := by
  simp only [keepChar, isPySpace, Bool.or_eq_true, Bool.and_eq_true, decide_eq_true_eq] at h1 h2
  unfold Char.toLower
  rw [if_neg]
  simp only [Char.toNat] at h1 h2 ⊢
  omega

theorem collapse_of_nospace :
    ∀ (l : List Char) (b : Bool), (∀ c ∈ l, isPySpace c = false) → collapseWsAux b l = l := by
  intro l
  induction l with
  | nil => intro b _; rfl
  | cons a rest ih =>
    intro b h
    have ha : ¬(isPySpace a = true) := by simp [h a (by simp)]
    simp only [collapseWsAux, if_neg ha]
    rw [ih false fun c hc => h c (by simp [hc])]

theorem clean_chars (s : String) :
    ∀ c ∈ (clean_field_name s).data, keepChar c = true ∧ isPySpace c = false := by
  intro c hc
  have hkeep : ∀ d ∈ (s.data.map Char.toLower).filter keepChar, keepChar d = true :=
    fun d hd => List.of_mem_filter hd
  exact collapse_chars _ false hkeep c hc

theorem clean_idem (s : String) :
    clean_field_name (clean_field_name s) = clean_field_name s := by
  have hchars := clean_chars s
  show (⟨collapseWsAux false (((clean_field_name s).data.map Char.toLower).filter keepChar)⟩ : String)
    = clean_field_name s
  rw [map_fix_of_mem Char.toLower _ fun c hc => toLower_fixed (hchars c hc).1 (hchars c hc).2]
  rw [List.filter_eq_self.mpr fun c hc => (hchars c hc).1]
  rw [collapse_of_nospace _ false fun c hc => (hchars c hc).2]

/-- C1 counterexample: the header Project is a key of FIELD_NAME_MAP
mapped to the empty string, yet the field normalizer does not return
the empty string for it: the falsy lookup result falls through to the
derived name project, so the column is kept, not dropped. -/
theorem c1_drop_column_counterexample :
    FIELD_NAME_MAP.lookup "Project" = some "" ∧
    normalizeFieldName "Project" = "project" ∧ ("project" : String) ≠ "" :=
  ⟨by decide, by decide, by decide⟩

/-- C1 amended: for every header of the fixed table mapped to a
nonempty identifier the normalizer returns exactly that identifier;
for every header mapped to the empty string it instead returns the
derived cleaned name, which is nonempty, so the column is kept rather
than dropped. -/
theorem c1_field_map_amended :
    ∀ p ∈ FIELD_NAME_MAP,
      (p.2 ≠ "" → normalizeFieldName p.1 = p.2) ∧
      (p.2 = "" → normalizeFieldName p.1 = clean_field_name p.1 ∧ clean_field_name p.1 ≠ "") := by
  decide

/-- C1 amended, instantiated at the headers Project and Year. -/
theorem c1_field_map_amended_witness :
    (("Project", "") ∈ FIELD_NAME_MAP ∧
      normalizeFieldName "Project" = clean_field_name "Project" ∧ clean_field_name "Project" ≠ "") ∧
    (("Year", "year_built") ∈ FIELD_NAME_MAP ∧ normalizeFieldName "Year" = "year_built") :=
  ⟨⟨by decide, (c1_field_map_amended ("Project", "") (by decide)).2 rfl⟩,
   ⟨by decide, (c1_field_map_amended ("Year", "year_built") (by decide)).1 (by decide)⟩⟩

/-- C4: the derived field name of an unmapped header is idempotent
under re-normalization, and a header whose derived name is not a
valid identifier makes fieldnames abort the import. -/
theorem c4_derived_idempotent_and_abort :
    (∀ s, clean_field_name (clean_field_name s) = clean_field_name s) ∧
    (∀ headers h, h ∈ headers → FIELD_NAME_MAP.lookup h = none →
      isidentifier (clean_field_name h) = false → exceptIsOk (fieldnames headers) = false) := by
  constructor
  · exact clean_idem
  · intro headers h hmem hlook hbad
    have hnorm : normalizeFieldName h = clean_field_name h := by
      simp [normalizeFieldName, hlook]
    have hmem2 : clean_field_name h ∈ headers.map normalizeFieldName := by
      rw [← hnorm]; exact List.mem_map_of_mem normalizeFieldName hmem
    have hsome : ((headers.map normalizeFieldName).find? (fun n => !(isidentifier n))).isSome := by
      rw [List.find?_isSome]
      exact ⟨clean_field_name h, hmem2, by simp [hbad]⟩
    obtain ⟨n, hn⟩ := Option.isSome_iff_exists.mp hsome
    simp only [fieldnames, hn, exceptIsOk]

/-- C4 instantiated at a header list containing the unmapped header
1bad, whose derived name starts with a digit. -/
theorem c4_derived_witness :
    clean_field_name (clean_field_name "A b") = clean_field_name "A b" ∧
    (("1bad" : String) ∈ ["Name in BES Reports", "1bad"] ∧
      FIELD_NAME_MAP.lookup "1bad" = none ∧
      isidentifier (clean_field_name "1bad") = false ∧
      exceptIsOk (fieldnames ["Name in BES Reports", "1bad"]) = false) :=
  ⟨c4_derived_idempotent_and_abort.1 "A b",
   by decide, by decide, by decide,
   c4_derived_idempotent_and_abort.2 ["Name in BES Reports", "1bad"] "1bad"
     (by decide) (by decide) (by decide)⟩

theorem parseDigits_append :
    ∀ (l1 l2 : List Char) (acc : Nat),
      parseDigits acc (l1 ++ l2) = parseDigits (parseDigits acc l1) l2 := by
  intro l1
  induction l1 with
  | nil => intro l2 acc; rfl
  | cons c cs ih => intro l2 acc; exact ih l2 (acc * 10 + chDigit c)

theorem chDigit_digitCh : ∀ d < 10, chDigit (digitCh d) = d := by decide

theorem parseDigits_natToStrAux :
    ∀ (fuel n acc : Nat), n ≤ fuel →
      parseDigits acc (natToStrAux fuel n) = acc * 10 ^ (natToStrAux fuel n).length + n := by
  intro fuel
  induction fuel with
  | zero =>
    intro n acc hn
    have : n = 0 := by omega
    subst this
    show acc = acc * 10 ^ (0 : Nat) + 0
    simp
  | succ fuel ih =>
    intro n acc hn
    by_cases h0 : n = 0
    · subst h0
      show acc = acc * 10 ^ (0 : Nat) + 0
      simp
    · have hdiv : n / 10 ≤ fuel := by
        have := Nat.div_lt_self (Nat.pos_of_ne_zero h0) (by norm_num : 1 < 10)
        omega
      have hstep : natToStrAux (fuel + 1) n = natToStrAux fuel (n / 10) ++ [digitCh (n % 10)] := by
        show (if n = 0 then [] else natToStrAux fuel (n / 10) ++ [digitCh (n % 10)]) = _
        rw [if_neg h0]
      have hone : ∀ (A : Nat) (d : Char), parseDigits A [d] = A * 10 + chDigit d :=
        fun A d => rfl
      rw [hstep, parseDigits_append, ih (n / 10) acc hdiv, hone]
      rw [chDigit_digitCh (n % 10) (Nat.mod_lt n (by norm_num))]
      rw [List.length_append, List.length_singleton, pow_succ]
      have hdm : 10 * (n / 10) + n % 10 = n := Nat.div_add_mod n 10
      have hx : acc * (10 ^ (natToStrAux fuel (n / 10)).length * 10)
          = acc * 10 ^ (natToStrAux fuel (n / 10)).length * 10 := by ring
      rw [hx]
      omega

theorem natToStr_inj : ∀ m n : Nat, natToStr m = natToStr n → m = n := by
  have key : ∀ k : Nat, parseDigits 0 (natToStr k).data = k := by
    intro k
    by_cases hk : k = 0
    · subst hk; simp only [natToStr, if_pos rfl]; rfl
    · simp only [natToStr, if_neg hk]
      have := parseDigits_natToStrAux (k + 1) k 0 (by omega)
      simpa using this
  intro m n h
  have := congrArg (fun s => parseDigits 0 s.data) h
  simpa [key] using this

theorem candName_length (base : String) (i : Nat) :
    (candName base i).length = base.length + 1 + (natToStr i).length := by
  have h1 : ("-" : String).length = 1 := rfl
  simp [candName, String.length_append, h1]

theorem candName_ne_base (base : String) (i : Nat) : candName base i ≠ base := by
  intro h
  have := congrArg String.length h
  rw [candName_length] at this
  omega

theorem candName_inj (base : String) {i j : Nat} (h : candName base i = candName base j) :
    i = j := by
  apply natToStr_inj
  apply String.ext
  have hd := congrArg String.data h
  simp only [candName, String.data_append] at hd
  exact List.append_cancel_left hd

theorem dedupLoop_free (names : List String) (base : String) :
    ∀ fuel i name,
      (name ∉ names ∨ ∃ j, j + 1 < fuel ∧ candName base (i + j) ∉ names) →
      dedupLoop names base fuel name i ∉ names := by
  intro fuel
  induction fuel with
  | zero =>
    intro i name h
    rcases h with h | ⟨j, hj, _⟩
    · simpa [dedupLoop] using h
    · omega
  | succ fuel ih =>
    intro i name h
    simp only [dedupLoop]
    by_cases hmem : name ∈ names
    · rw [if_pos hmem]
      rcases h with h | ⟨j, hj, hfree⟩
      · exact absurd hmem h
      · apply ih (i + 1)
        cases j with
        | zero => left; simpa using hfree
        | succ j' =>
          right
          refine ⟨j', by omega, ?_⟩
          have harith : i + 1 + j' = i + (j' + 1) := by omega
          rw [harith]
          exact hfree
    · rw [if_neg hmem]; exact hmem

theorem exists_free_cand (names : List String) (base : String) :
    base ∉ names ∨ ∃ j, j + 1 < names.length + 2 ∧ candName base (1 + j) ∉ names := by
  by_contra hcon
  push_neg at hcon
  obtain ⟨hbase, hall⟩ := hcon
  set g : Nat → String := fun k => if k = 0 then base else candName base k with hg_def
  have hg : ∀ k ∈ Finset.range (names.length + 2), g k ∈ names := by
    intro k hk
    rcases Nat.eq_zero_or_pos k with hk0 | hk0
    · simpa [hg_def, hk0] using hbase
    · have hk1 : k ≠ 0 := by omega
      have hlt : (k - 1) + 1 < names.length + 2 := by
        have := Finset.mem_range.mp hk; omega
      have := hall (k - 1) hlt
      have harith : 1 + (k - 1) = k := by omega
      rw [harith] at this
      simpa [hg_def, hk1] using this
  have hinj : Set.InjOn g (Finset.range (names.length + 2)) := by
    intro x _ y _ hxy
    simp only [hg_def] at hxy
    by_cases hx0 : x = 0 <;> by_cases hy0 : y = 0
    · omega
    · rw [if_pos hx0, if_neg hy0] at hxy; exact absurd hxy.symm (candName_ne_base base y)
    · rw [if_neg hx0, if_pos hy0] at hxy; exact absurd hxy (candName_ne_base base x)
    · rw [if_neg hx0, if_neg hy0] at hxy; exact candName_inj base hxy
  have hcard : ((Finset.range (names.length + 2)).image g).card = names.length + 2 := by
    rw [Finset.card_image_of_injOn hinj, Finset.card_range]
  have hsub : (Finset.range (names.length + 2)).image g ⊆ names.toFinset := by
    intro s hs
    obtain ⟨k, hk, hks⟩ := Finset.mem_image.mp hs
    rw [← hks]
    exact List.mem_toFinset.mpr (hg k hk)
  have := Finset.card_le_card hsub
  have htf := names.toFinset_card_le
  omega

theorem dedupName_not_mem (names : List String) (base : String) :
    dedupName names base ∉ names := by
  apply dedupLoop_free names base (names.length + 2) 1 base
  exact exists_free_cand names base

theorem dedupName_of_not_mem {names : List String} {base : String} (h : base ∉ names) :
    dedupName names base = base := by
  simp [dedupName, dedupLoop, h]

/-- C5: the name de-duplication of insert_locations never returns a
name already used in the run, returns the candidate unchanged when it
is not yet used, and on three rows named Roof A assigns Roof A,
Roof A-1, Roof A-2. -/
theorem c5_name_dedup :
    (∀ names base, dedupName names base ∉ names) ∧
    (∀ names base, base ∉ names → dedupName names base = base) ∧
    (insert_locations false false noResolve [roofRow, roofRow, roofRow] officeStore).1.locations.map
        Location.name = ["Roof A", "Roof A-1", "Roof A-2"] := by
  refine ⟨dedupName_not_mem, fun names base h => dedupName_of_not_mem h, by decide⟩

/-- C5 instantiated: Roof B is unused in the singleton run state, so
it is assigned unchanged. -/
theorem c5_name_dedup_witness :
    ("Roof B" : String) ∉ (["Roof A"] : List String) ∧ dedupName ["Roof A"] "Roof B" = "Roof B" :=
  ⟨by decide, c5_name_dedup.2.1 ["Roof A"] "Roof B" (by decide)⟩

theorem titleAux_ne_nil (b : Bool) (c : Char) (l : List Char) : titleAux b (c :: l) ≠ [] := by
  show (if c.isAlpha then (if b then c.toLower else c.toUpper) :: titleAux true l
    else c :: titleAux false l) ≠ []
  split <;> simp

theorem normalize_ne_empty {s : String} (h : s ≠ "") : normalize_name s ≠ "" := by
  have hd : s.data ≠ [] := by
    intro hnil
    exact h (String.ext hnil)
  cases hds : s.data with
  | nil => exact absurd hds hd
  | cons c l =>
    simp only [normalize_name, hds]
    split
    · intro htitle
      have := congrArg String.data htitle
      simp only [title] at this
      rw [hds] at this
      exact titleAux_ne_nil false c l this
    · exact h

theorem internRecords_nodup (vals : List (Option String)) : (internRecords vals).Nodup :=
  (List.nodup_dedup _).filter _

theorem mem_internRecords_iff (vals : List (Option String))
    (hne : ∀ s, some s ∈ vals → s ≠ "") :
    ∀ v, v ∈ internRecords vals ↔ ∃ s, some s ∈ vals ∧ normalize_name s = v := by
  intro v
  constructor
  · intro hv
    have hv2 : v ∈ internValues vals := List.mem_of_mem_filter hv
    simp only [internValues, List.mem_dedup, List.mem_map, List.mem_filterMap, id_eq] at hv2
    obtain ⟨s, ⟨o, ho, hos⟩, hs⟩ := hv2
    exact ⟨s, by rw [← hos]; exact ho, hs⟩
  · rintro ⟨s, hs, rfl⟩
    apply List.mem_filter.mpr
    constructor
    · simp only [internValues, List.mem_dedup, List.mem_map, List.mem_filterMap, id_eq]
      exact ⟨s, ⟨some s, hs, rfl⟩, rfl⟩
    · simpa using normalize_ne_empty (hne s hs)

/-- C3: the records persisted by column_to_table for a source column
are exactly the distinct, non-null, post-normalization values of that
column: the table receives one record per such value, with no
duplicates and no omissions.  The nonemptiness hypothesis is
discharged by the row reader, whose value coercion never produces an
empty present value. -/
theorem c3_intern_exact (quiet : Bool) (data : List Row) (col : Row → Option String)
    (mn ff : String) (store : Store)
    (hne : ∀ r ∈ data, col r ≠ some "") :
    (column_to_table quiet false data col mn ff Store.building_uses
        (fun s l => { s with building_uses := l }) store).1.building_uses
      = store.building_uses ++ internRecords (data.map col) ∧
    (internRecords (data.map col)).Nodup ∧
    (∀ v, v ∈ internRecords (data.map col) ↔
      ∃ s, some s ∈ data.map col ∧ normalize_name s = v) ∧
    (∀ raw, coerceBlank raw ≠ some "") := by
  refine ⟨rfl, internRecords_nodup _, mem_internRecords_iff _ ?_, ?_⟩
  · intro s hs
    obtain ⟨r, hr, hcr⟩ := List.mem_map.mp hs
    intro hse
    rw [hse] at hcr
    exact hne r hr hcr
  · intro raw
    simp only [coerceBlank]
    split <;> simp_all

/-- C3 instantiated: interning the building-use column of one row
with value Office appends exactly the record Office. -/
theorem c3_intern_exact_witness :
    (column_to_table false false [roofRow] Row.building_use "BuildingUse" "building_use"
        Store.building_uses (fun s l => { s with building_uses := l }) freshStore).1.building_uses
      = freshStore.building_uses ++ internRecords ([roofRow].map Row.building_use) :=
  (c3_intern_exact false [roofRow] Row.building_use "BuildingUse" "building_use" freshStore
    (by decide)).1

theorem processRow_skip_eq (q d : Bool) (r : String → Option String)
    (bus wss nm : List String) (lc : List Location) (row : Row) (base : String)
    (bu ws : Option String)
    (h1 : orFalsy row.name row.project = some base)
    (h2 : choice row.building_use "building_use" bus false = .ok bu)
    (h3 : choice row.watershed "watershed" wss true = .ok ws)
    (h4 : row.longitude = none ∨ row.latitude = none) :
    processRow q d r bus wss nm lc row =
      .ok (nm ++ [dedupName nm base], lc,
        pline q d ("Coordinates not set for location \"" ++ dedupName nm base ++ "\": "
          ++ ("POINT(" ++ optStr row.longitude ++ " " ++ optStr row.latitude ++ ")")
          ++ "; skipping")) := by
  rcases h4 with h4 | h4 <;> simp [processRow, h1, h2, h3, h4, optStr]

theorem processRow_full_eq (q d : Bool) (r : String → Option String)
    (bus wss nm : List String) (lc : List Location) (row : Row) (base : String)
    (bu ws : Option String) (x y : String)
    (h1 : orFalsy row.name row.project = some base)
    (h2 : choice row.building_use "building_use" bus false = .ok bu)
    (h3 : choice row.watershed "watershed" wss true = .ok ws)
    (h5 : row.longitude = some x) (h6 : row.latitude = some y) :
    processRow q d r bus wss nm lc row =
      .ok (nm ++ [dedupName nm base],
        lc ++ [⟨dedupName nm base, "POINT(" ++ x ++ " " ++ y ++ ")", bu, ws,
          r ("POINT(" ++ x ++ " " ++ y ++ ")")⟩], []) := by
  simp [processRow, h1, h2, h3, h5, h6, optStr]

theorem processRow_missing_eq (q d : Bool) (r : String → Option String)
    (bus wss nm : List String) (lc : List Location) (row : Row) (base : String)
    (h1 : orFalsy row.name row.project = some base)
    (hbu : row.building_use = none) :
    processRow q d r bus wss nm lc row = .error (.missingValue "building_use") := by
  simp [processRow, choice, h1, hbu]

theorem processRow_badchoice_eq (q d : Bool) (r : String → Option String)
    (bus wss nm : List String) (lc : List Location) (row : Row) (base : String) (v : String)
    (h1 : orFalsy row.name row.project = some base)
    (hv : row.building_use = some v)
    (hn : normalize_name v ∉ bus) :
    processRow q d r bus wss nm lc row =
      .error (.badChoice (normalize_name v) "building_use" bus) := by
  simp [processRow, choice, h1, hv, hn]

/-- C6: a row whose longitude is present but latitude null, or the
reverse, is skipped by the location loader with a console warning,
neither inserted nor fatal; a fully populated row yields a location
whose point is the well-known-text rendering with longitude first;
concretely, longitude -122.6 and latitude 45.5 render as
POINT(-122.6 45.5). -/
theorem c6_coordinate_handling :
    (∀ (q d : Bool) (r : String → Option String) (bus wss nm : List String)
      (lc : List Location) (row : Row) (base : String) (bu ws : Option String),
      orFalsy row.name row.project = some base →
      choice row.building_use "building_use" bus false = .ok bu →
      choice row.watershed "watershed" wss true = .ok ws →
      ((row.longitude ≠ none ∧ row.latitude = none) ∨
        (row.longitude = none ∧ row.latitude ≠ none)) →
      processRow q d r bus wss nm lc row =
        .ok (nm ++ [dedupName nm base], lc,
          pline q d ("Coordinates not set for location \"" ++ dedupName nm base ++ "\": "
            ++ ("POINT(" ++ optStr row.longitude ++ " " ++ optStr row.latitude ++ ")")
            ++ "; skipping"))) ∧
    (∀ (q d : Bool) (r : String → Option String) (bus wss nm : List String)
      (lc : List Location) (row : Row) (base : String) (bu ws : Option String) (x y : String),
      orFalsy row.name row.project = some base →
      choice row.building_use "building_use" bus false = .ok bu →
      choice row.watershed "watershed" wss true = .ok ws →
      row.longitude = some x → row.latitude = some y →
      processRow q d r bus wss nm lc row =
        .ok (nm ++ [dedupName nm base],
          lc ++ [⟨dedupName nm base, "POINT(" ++ x ++ " " ++ y ++ ")", bu, ws,
            r ("POINT(" ++ x ++ " " ++ y ++ ")")⟩], [])) ∧
    processRow false false noResolve ["Office"] [] [] [] roofRow =
      .ok (["Roof A"], [⟨"Roof A", "POINT(-122.6 45.5)", some "Office", none, none⟩], []) := by
  refine ⟨?_, ?_, by decide⟩
  · intro q d r bus wss nm lc row base bu ws h1 h2 h3 h4
    refine processRow_skip_eq q d r bus wss nm lc row base bu ws h1 h2 h3 ?_
    rcases h4 with ⟨_, h⟩ | ⟨h, _⟩
    · exact Or.inr h
    · exact Or.inl h
  · intro q d r bus wss nm lc row base bu ws x y h1 h2 h3 h5 h6
    exact processRow_full_eq q d r bus wss nm lc row base bu ws x y h1 h2 h3 h5 h6

/-- C6 instantiated: a row with longitude -122.6 and null latitude is
skipped with a warning line and no insertion. -/
theorem c6_coordinate_handling_witness :
    orFalsy rowHalfCoords.name rowHalfCoords.project = some "R" ∧
    choice rowHalfCoords.building_use "building_use" ["Office"] false = .ok (some "Office") ∧
    choice rowHalfCoords.watershed "watershed" [] true = .ok none ∧
    processRow false false noResolve ["Office"] [] [] [] rowHalfCoords =
      .ok (["R"], [],
        pline false false ("Coordinates not set for location \"" ++ dedupName [] "R" ++ "\": "
          ++ ("POINT(" ++ optStr rowHalfCoords.longitude ++ " " ++ optStr rowHalfCoords.latitude ++ ")")
          ++ "; skipping")) := by
  refine ⟨by decide, by decide, by decide, ?_⟩
  have := c6_coordinate_handling.1 false false noResolve ["Office"] [] [] []
    rowHalfCoords "R" (some "Office") none (by decide) (by decide) (by decide)
    (Or.inl ⟨by decide, by decide⟩)
  rw [this]
  decide

/-- C9: for a row whose name resolves, a null building-use value
aborts the run with a missing-value error, and a non-null value whose
normalization is not a key of the pre-loaded mapping aborts the run
with an error carrying the available choices; both are errors of the
whole run, not row skips. -/
theorem c9_building_use_required :
    ∀ (q d : Bool) (r : String → Option String) (bus wss nm : List String)
      (lc : List Location) (row : Row) (base : String),
      orFalsy row.name row.project = some base →
      (row.building_use = none →
        processRow q d r bus wss nm lc row = .error (.missingValue "building_use")) ∧
      (∀ v, row.building_use = some v → normalize_name v ∉ bus →
        processRow q d r bus wss nm lc row =
          .error (.badChoice (normalize_name v) "building_use" bus)) := by
  intro q d r bus wss nm lc row base h1
  constructor
  · intro hbu
    exact processRow_missing_eq q d r bus wss nm lc row base h1 hbu
  · intro v hv hn
    exact processRow_badchoice_eq q d r bus wss nm lc row base v h1 hv hn

/-- C9 instantiated: a null building use errors, and the value Office
against an empty mapping errors carrying the empty choice list. -/
theorem c9_building_use_required_witness :
    (orFalsy rowNoBU.name rowNoBU.project = some "R" ∧ rowNoBU.building_use = none ∧
      processRow false false noResolve [] [] [] [] rowNoBU =
        .error (.missingValue "building_use")) ∧
    (rowBadBU.building_use = some "Office" ∧
      processRow false false noResolve [] [] [] [] rowBadBU =
        .error (.badChoice "Office" "building_use" [])) :=
  ⟨⟨by decide, by decide,
    (c9_building_use_required false false noResolve [] [] [] [] rowNoBU "R" (by decide)).1
      (by decide)⟩,
   ⟨by decide,
    (c9_building_use_required false false noResolve [] [] [] [] rowBadBU "R" (by decide)).2
      "Office" (by decide) (by decide)⟩⟩

/-- C10: a row skipped for incomplete coordinates still reserves its
de-duplicated name, since the name is recorded before the coordinate
check; concretely, a skipped Roof A row followed by a complete Roof A
row makes the second row insert under Roof A-1. -/
theorem c10_skip_reserves_name :
    (∀ (q d : Bool) (r : String → Option String) (bus wss nm : List String)
      (lc : List Location) (row : Row) (base : String) (bu ws : Option String),
      orFalsy row.name row.project = some base →
      choice row.building_use "building_use" bus false = .ok bu →
      choice row.watershed "watershed" wss true = .ok ws →
      (row.longitude = none ∨ row.latitude = none) →
      processRow q d r bus wss nm lc row =
        .ok (nm ++ [dedupName nm base], lc,
          pline q d ("Coordinates not set for location \"" ++ dedupName nm base ++ "\": "
            ++ ("POINT(" ++ optStr row.longitude ++ " " ++ optStr row.latitude ++ ")")
            ++ "; skipping"))) ∧
    (insert_locations false false noResolve [roofRowNoCoords, roofRow] officeStore).1.locations.map
      Location.name = ["Roof A-1"] := by
  constructor
  · intro q d r bus wss nm lc row base bu ws h1 h2 h3 h4
    exact processRow_skip_eq q d r bus wss nm lc row base bu ws h1 h2 h3 h4
  · decide

/-- C10 instantiated: the skipped half-coordinate row extends the
used-name list with R while inserting nothing. -/
theorem c10_skip_reserves_name_witness :
    processRow false false noResolve ["Office"] [] ["R"] [] rowHalfCoords =
      .ok (["R"] ++ [dedupName ["R"] "R"], [],
        pline false false ("Coordinates not set for location \"" ++ dedupName ["R"] "R" ++ "\": "
          ++ ("POINT(" ++ optStr rowHalfCoords.longitude ++ " "
            ++ optStr rowHalfCoords.latitude ++ ")")
          ++ "; skipping")) :=
  c10_skip_reserves_name.1 false false noResolve ["Office"] [] ["R"] [] rowHalfCoords "R"
    (some "Office") none (by decide) (by decide) (by decide) (Or.inr (by decide))

theorem pline_quiet (d : Bool) (s : String) : pline true d s = [] := rfl

theorem pline_nowarn (q d : Bool) (s : String) :
    (pline q d s).filter lineIsWarning = [] := by
  cases q <;> simp [pline, lineIsWarning]

theorem pline_dry (q : Bool) (s : String) :
    pline q true s = (pline q false s).map markDry := by
  cases q <;> simp [pline, markDry]

theorem valueLines_quiet (d : Bool) : ∀ l, valueLines true d l = [] := by
  intro l
  induction l with
  | nil => rfl
  | cons v vs ih => simp [valueLines, pline_quiet, ih]

theorem valueLines_nowarn (d : Bool) : ∀ l, (valueLines false d l).filter lineIsWarning = [] := by
  intro l
  induction l with
  | nil => rfl
  | cons v vs ih => simp [valueLines, List.filter_append, pline_nowarn, ih]

theorem valueLines_dry (q : Bool) :
    ∀ l, valueLines q true l = (valueLines q false l).map markDry := by
  intro l
  induction l with
  | nil => rfl
  | cons v vs ih => simp [valueLines, pline_dry, ih]

theorem column_store_real (q : Bool) (data : List Row) (col : Row → Option String)
    (mn ff : String) (getT : Store → List String) (setT : Store → List String → Store)
    (S : Store) :
    (column_to_table q false data col mn ff getT setT S).1
      = setT S (getT S ++ internRecords (data.map col)) := rfl

theorem column_store_dry (q : Bool) (data : List Row) (col : Row → Option String)
    (mn ff : String) (getT : Store → List String) (setT : Store → List String → Store)
    (S : Store) :
    (column_to_table q true data col mn ff getT setT S).1 = S := rfl

theorem column_out_quiet (d : Bool) (data : List Row) (col : Row → Option String)
    (mn ff : String) (getT : Store → List String) (setT : Store → List String → Store)
    (S1 S2 : Store) :
    (column_to_table true d data col mn ff getT setT S1).2 = [] ∧
    ((column_to_table false d data col mn ff getT setT S2).2).filter lineIsWarning = [] := by
  constructor
  · simp [column_to_table, pline_quiet, valueLines_quiet]
  · simp [column_to_table, List.filter_append, pline_nowarn, valueLines_nowarn]

theorem column_out_dry (q : Bool) (data : List Row) (col : Row → Option String)
    (mn ff : String) (getT : Store → List String) (setT : Store → List String → Store)
    (S1 S2 : Store) :
    (column_to_table q true data col mn ff getT setT S1).2
      = ((column_to_table q false data col mn ff getT setT S2).2).map markDry := by
  simp [column_to_table, pline_dry, valueLines_dry]

theorem column_out_store_indep (q d : Bool) (data : List Row) (col : Row → Option String)
    (mn ff : String) (getT : Store → List String) (setT : Store → List String → Store)
    (S1 S2 : Store) :
    (column_to_table q d data col mn ff getT setT S1).2
      = (column_to_table q d data col mn ff getT setT S2).2 := rfl

theorem do_overwrite_store_q (d : Bool) (S : Store) :
    (do_overwrite true d S).1 = (do_overwrite false d S).1 := rfl

theorem overwriteStep_store_q (o d : Bool) (S : Store) :
    (overwriteStep o true d S).1 = (overwriteStep o false d S).1 := by
  cases o <;> rfl

theorem overwriteStep_out_quiet (o d : Bool) (S : Store) :
    (overwriteStep o true d S).2 = ((overwriteStep o false d S).2).filter lineIsWarning := by
  cases o with
  | true => simp [overwriteStep, do_overwrite, List.filter_append, pline_nowarn, pline_quiet]
  | false =>
    simp only [overwriteStep, if_neg (Bool.false_ne_true)]
    split <;> simp [lineIsWarning]

theorem overwriteStep_store_dry (o q : Bool) (S : Store) :
    (overwriteStep o q true S).1 = S := by
  cases o <;> rfl

theorem overwriteStep_out_dry (o q : Bool) (S : Store) :
    (overwriteStep o q true S).2 = ((overwriteStep o q false S).2).map markDry := by
  cases o with
  | true => simp [overwriteStep, do_overwrite, pline_dry]
  | false =>
    simp only [overwriteStep, if_neg (Bool.false_ne_true)]
    split <;> simp [markDry]

theorem neighborhoodWarning_dry_fix (S : Store) :
    (neighborhoodWarning S).map markDry = neighborhoodWarning S := by
  simp only [neighborhoodWarning]
  split <;> simp [markDry]

theorem neighborhoodWarning_warn (S : Store) :
    (neighborhoodWarning S).filter lineIsWarning = neighborhoodWarning S := by
  simp only [neighborhoodWarning]
  split <;> simp [lineIsWarning]

theorem processRow_quiet (d : Bool) (r : String → Option String)
    (bus wss nm : List String) (lc : List Location) (row : Row) :
    processRow true d r bus wss nm lc row =
      (processRow false d r bus wss nm lc row).map (fun x => (x.1, x.2.1, ([] : List Line))) := by
  cases h : orFalsy row.name row.project with
  | none => simp [processRow, h, pline_quiet, Except.map]
  | some base =>
    cases h2 : choice row.building_use "building_use" bus false with
    | error e => simp [processRow, h, h2, Except.map]
    | ok bu =>
      cases h3 : choice row.watershed "watershed" wss true with
      | error e => simp [processRow, h, h2, h3, Except.map]
      | ok ws =>
        by_cases hco : row.longitude = none ∨ row.latitude = none
        · simp [processRow, h, h2, h3, hco, pline_quiet, Except.map]
        · simp [processRow, h, h2, h3, hco, Except.map]

theorem processRow_dry (q : Bool) (r : String → Option String)
    (bus wss nm : List String) (lc : List Location) (row : Row) :
    processRow q true r bus wss nm lc row =
      (processRow q false r bus wss nm lc row).map
        (fun x => (x.1, x.2.1, x.2.2.map markDry)) := by
  cases h : orFalsy row.name row.project with
  | none => simp [processRow, h, pline_dry, Except.map]
  | some base =>
    cases h2 : choice row.building_use "building_use" bus false with
    | error e => simp [processRow, h, h2, Except.map]
    | ok bu =>
      cases h3 : choice row.watershed "watershed" wss true with
      | error e => simp [processRow, h, h2, h3, Except.map]
      | ok ws =>
        by_cases hco : row.longitude = none ∨ row.latitude = none
        · simp [processRow, h, h2, h3, hco, pline_dry, Except.map]
        · simp [processRow, h, h2, h3, hco, Except.map]

theorem processRow_ok_delta (q d : Bool) (r : String → Option String)
    (bus wss nm : List String) (lc : List Location) (row : Row) :
    ∀ x, processRow q d r bus wss nm lc row = .ok x →
      (∃ s, x.2.2 = pline q d s) ∨ x.2.2 = [] := by
  intro x hx
  cases h : orFalsy row.name row.project with
  | none =>
    simp only [processRow, h] at hx
    cases hx
    exact Or.inl ⟨_, rfl⟩
  | some base =>
    cases h2 : choice row.building_use "building_use" bus false with
    | error e => simp [processRow, h, h2] at hx
    | ok bu =>
      cases h3 : choice row.watershed "watershed" wss true with
      | error e => simp [processRow, h, h2, h3] at hx
      | ok ws =>
        by_cases hco : row.longitude = none ∨ row.latitude = none
        · rw [processRow_skip_eq q d r bus wss nm lc row base bu ws h h2 h3 hco] at hx
          cases hx
          exact Or.inl ⟨_, rfl⟩
        · push_neg at hco
          obtain ⟨hlon, hlat⟩ := hco
          obtain ⟨xv, hxv⟩ := Option.ne_none_iff_exists'.mp hlon
          obtain ⟨yv, hyv⟩ := Option.ne_none_iff_exists'.mp hlat
          rw [processRow_full_eq q d r bus wss nm lc row base bu ws xv yv h h2 h3 hxv hyv] at hx
          cases hx
          exact Or.inr rfl

theorem choice_tables_congr (value : Option String) (field : String) (null : Bool)
    (T1 T2 : List String)
    (h : ∀ v, value = some v → normalize_name v ∈ T1 ∧ normalize_name v ∈ T2) :
    choice value field T1 null = choice value field T2 null := by
  cases value with
  | none => rfl
  | some v =>
    obtain ⟨h1, h2⟩ := h v rfl
    simp [choice, h1, h2]

theorem processRow_tables_congr (q d : Bool) (r : String → Option String)
    (bus1 wss1 bus2 wss2 nm : List String) (lc : List Location) (row : Row)
    (hb : ∀ v, row.building_use = some v → normalize_name v ∈ bus1 ∧ normalize_name v ∈ bus2)
    (hw : ∀ v, row.watershed = some v → normalize_name v ∈ wss1 ∧ normalize_name v ∈ wss2) :
    processRow q d r bus1 wss1 nm lc row = processRow q d r bus2 wss2 nm lc row := by
  unfold processRow
  rw [choice_tables_congr row.building_use "building_use" false bus1 bus2 hb,
    choice_tables_congr row.watershed "watershed" true wss1 wss2 hw]

theorem insertLoop_out (q d : Bool) (r : String → Option String) (bus wss : List String) :
    ∀ (data : List Row) (nm : List String) (lc : List Location) (out : List Line),
      insertLoop q d r bus wss nm lc out data
        = ((insertLoop q d r bus wss nm lc [] data).1,
           (insertLoop q d r bus wss nm lc [] data).2.1,
           out ++ (insertLoop q d r bus wss nm lc [] data).2.2.1,
           (insertLoop q d r bus wss nm lc [] data).2.2.2) := by
  intro data
  induction data with
  | nil => intro nm lc out; simp [insertLoop]
  | cons row rest ih =>
    intro nm lc out
    cases hp : processRow q d r bus wss nm lc row with
    | error e => simp [insertLoop, hp]
    | ok x =>
      obtain ⟨nm', lc', delta⟩ := x
      simp only [insertLoop, hp]
      rw [ih nm' lc' (out ++ delta), ih nm' lc' ([] ++ delta)]
      simp [List.append_assoc]

theorem insertLoop_quiet (d : Bool) (r : String → Option String) (bus wss : List String) :
    ∀ (data : List Row) (nm : List String) (lc : List Location),
      insertLoop true d r bus wss nm lc [] data
        = ((insertLoop false d r bus wss nm lc [] data).1,
           (insertLoop false d r bus wss nm lc [] data).2.1,
           [],
           (insertLoop false d r bus wss nm lc [] data).2.2.2) := by
  intro data
  induction data with
  | nil => intro nm lc; simp [insertLoop]
  | cons row rest ih =>
    intro nm lc
    cases hp : processRow false d r bus wss nm lc row with
    | error e =>
      have hq : processRow true d r bus wss nm lc row = .error e := by
        rw [processRow_quiet, hp]; rfl
      simp [insertLoop, hp, hq]
    | ok x =>
      obtain ⟨nm', lc', delta⟩ := x
      have hq : processRow true d r bus wss nm lc row = .ok (nm', lc', []) := by
        rw [processRow_quiet, hp]; rfl
      simp only [insertLoop, hp, hq]
      rw [insertLoop_out false d r bus wss rest nm' lc' ([] ++ delta)]
      simp only [List.nil_append, List.append_nil]
      rw [ih nm' lc']

theorem insertLoop_nowarn (d : Bool) (r : String → Option String) (bus wss : List String) :
    ∀ (data : List Row) (nm : List String) (lc : List Location),
      ((insertLoop false d r bus wss nm lc [] data).2.2.1).filter lineIsWarning = [] := by
  intro data
  induction data with
  | nil => intro nm lc; simp [insertLoop]
  | cons row rest ih =>
    intro nm lc
    cases hp : processRow false d r bus wss nm lc row with
    | error e => simp [insertLoop, hp]
    | ok x =>
      obtain ⟨nm', lc', delta⟩ := x
      simp only [insertLoop, hp]
      rw [insertLoop_out false d r bus wss rest nm' lc' ([] ++ delta)]
      simp only [List.nil_append, List.filter_append]
      rw [ih nm' lc']
      rcases processRow_ok_delta false d r bus wss nm lc row _ hp with ⟨s, hs⟩ | hs
      · have hd : delta = pline false d s := hs
        simp [hd, pline_nowarn]
      · have hd : delta = [] := hs
        simp [hd]

theorem insertLoop_dry (q : Bool) (r : String → Option String)
    (bus1 wss1 bus2 wss2 : List String) :
    ∀ (data : List Row) (nm : List String) (lc : List Location),
      (∀ row ∈ data,
        (∀ v, row.building_use = some v →
          normalize_name v ∈ bus1 ∧ normalize_name v ∈ bus2) ∧
        (∀ v, row.watershed = some v →
          normalize_name v ∈ wss1 ∧ normalize_name v ∈ wss2)) →
      insertLoop q true r bus1 wss1 nm lc [] data
        = ((insertLoop q false r bus2 wss2 nm lc [] data).1,
           (insertLoop q false r bus2 wss2 nm lc [] data).2.1,
           ((insertLoop q false r bus2 wss2 nm lc [] data).2.2.1).map markDry,
           (insertLoop q false r bus2 wss2 nm lc [] data).2.2.2) := by
  intro data
  induction data with
  | nil => intro nm lc _; simp [insertLoop]
  | cons row rest ih =>
    intro nm lc h
    have hrow := h row (by simp)
    have hrest := fun (r2 : Row) (hr : r2 ∈ rest) => h r2 (List.mem_cons_of_mem _ hr)
    cases hp : processRow q false r bus2 wss2 nm lc row with
    | error e =>
      have hq : processRow q true r bus1 wss1 nm lc row = .error e := by
        rw [processRow_tables_congr q true r bus1 wss1 bus2 wss2 nm lc row hrow.1 hrow.2,
          processRow_dry, hp]
        rfl
      simp [insertLoop, hp, hq]
    | ok x =>
      obtain ⟨nm', lc', delta⟩ := x
      have hq : processRow q true r bus1 wss1 nm lc row = .ok (nm', lc', delta.map markDry) := by
        rw [processRow_tables_congr q true r bus1 wss1 bus2 wss2 nm lc row hrow.1 hrow.2,
          processRow_dry, hp]
        rfl
      simp only [insertLoop, hp, hq]
      rw [insertLoop_out q false r bus2 wss2 rest nm' lc' ([] ++ delta),
        insertLoop_out q true r bus1 wss1 rest nm' lc' ([] ++ delta.map markDry)]
      rw [ih nm' lc' hrest]
      simp [List.map_append]

theorem insert_locations_quiet (d : Bool) (r : String → Option String)
    (data : List Row) (S : Store) :
    insert_locations true d r data S
      = ((insert_locations false d r data S).1, [], (insert_locations false d r data S).2.2) := by
  unfold insert_locations
  rw [insertLoop_quiet d r S.building_uses S.watersheds data [] []]
  rcases hF : insertLoop false d r S.building_uses S.watersheds [] [] [] data with ⟨a, b, c, e⟩
  cases e <;> simp [pline_quiet]

theorem insert_locations_nowarn (d : Bool) (r : String → Option String)
    (data : List Row) (S : Store) :
    ((insert_locations false d r data S).2.1).filter lineIsWarning = [] := by
  unfold insert_locations
  rcases hF : insertLoop false d r S.building_uses S.watersheds [] [] [] data with ⟨a, b, c, e⟩
  have hc : c.filter lineIsWarning = [] := by
    have := insertLoop_nowarn d r S.building_uses S.watersheds data [] []
    rw [hF] at this
    exact this
  cases e <;> simp [List.filter_append, pline_nowarn, hc]

theorem insert_locations_store_dry (q : Bool) (r : String → Option String)
    (data : List Row) (S : Store) :
    (insert_locations q true r data S).1 = S := by
  unfold insert_locations
  rcases hF : insertLoop q true r S.building_uses S.watersheds [] [] [] data with ⟨a, b, c, e⟩
  cases e <;> simp

theorem insert_locations_dry (q : Bool) (r : String → Option String)
    (data : List Row) (S_d S_r : Store)
    (h : ∀ row ∈ data,
      (∀ v, row.building_use = some v →
        normalize_name v ∈ S_d.building_uses ∧ normalize_name v ∈ S_r.building_uses) ∧
      (∀ v, row.watershed = some v →
        normalize_name v ∈ S_d.watersheds ∧ normalize_name v ∈ S_r.watersheds)) :
    (insert_locations q true r data S_d).2.1
      = ((insert_locations q false r data S_r).2.1).map markDry ∧
    (insert_locations q true r data S_d).2.2 = (insert_locations q false r data S_r).2.2 := by
  unfold insert_locations
  rw [insertLoop_dry q r S_d.building_uses S_d.watersheds S_r.building_uses S_r.watersheds
    data [] [] h]
  rcases hF : insertLoop q false r S_r.building_uses S_r.watersheds [] [] [] data with ⟨a, b, c, e⟩
  cases e with
  | none => constructor <;> simp [pline_dry, List.map_append]
  | some e => constructor <;> simp

theorem insert_locations_bu (q d : Bool) (r : String → Option String)
    (data : List Row) (S : Store) :
    (insert_locations q d r data S).1.building_uses = S.building_uses := by
  unfold insert_locations
  rcases hF : insertLoop q d r S.building_uses S.watersheds [] [] [] data with ⟨a, b, c, e⟩
  cases e with
  | none => cases d <;> simp
  | some e => simp

theorem column_ws_pres_bu (q d : Bool) (data : List Row) (col : Row → Option String)
    (mn ff : String) (S : Store) :
    (column_to_table q d data col mn ff Store.watersheds
      (fun s l => { s with watersheds := l }) S).1.building_uses = S.building_uses := by
  cases d <;> rfl

theorem column_bu_real (q : Bool) (data : List Row) (col : Row → Option String)
    (mn ff : String) (S : Store) :
    (column_to_table q false data col mn ff Store.building_uses
      (fun s l => { s with building_uses := l }) S).1.building_uses
      = S.building_uses ++ internRecords (data.map col) := rfl

theorem overwriteStep_bu (o q d : Bool) (S : Store) :
    (overwriteStep o q d S).1.building_uses = S.building_uses := by
  cases o <;> cases d <;> rfl

theorem overwriteStep_ws_real (o q : Bool) (S : Store) :
    (overwriteStep o q false S).1.watersheds = []
      ∨ (overwriteStep o q false S).1.watersheds = S.watersheds := by
  cases o with
  | false => right; rfl
  | true => left; rfl

theorem mem_internRecords_of_mem {vals : List (Option String)} {s : String}
    (hs : some s ∈ vals) (hne : s ≠ "") : normalize_name s ∈ internRecords vals := by
  apply List.mem_filter.mpr
  refine ⟨?_, by simpa using normalize_ne_empty hne⟩
  simp only [internValues, List.mem_dedup, List.mem_map, List.mem_filterMap, id_eq]
  exact ⟨s, ⟨some s, hs, rfl⟩, rfl⟩

theorem column_out_quiet1 (d : Bool) (data : List Row) (col : Row → Option String)
    (mn ff : String) (getT : Store → List String) (setT : Store → List String → Store)
    (S : Store) :
    (column_to_table true d data col mn ff getT setT S).2 = [] :=
  (column_out_quiet d data col mn ff getT setT S S).1

theorem column_out_nowarn (d : Bool) (data : List Row) (col : Row → Option String)
    (mn ff : String) (getT : Store → List String) (setT : Store → List String → Store)
    (S : Store) :
    ((column_to_table false d data col mn ff getT setT S).2).filter lineIsWarning = [] :=
  (column_out_quiet d data col mn ff getT setT S S).2

theorem column_ws_real (q : Bool) (data : List Row) (col : Row → Option String)
    (mn ff : String) (S : Store) :
    (column_to_table q false data col mn ff Store.watersheds
      (fun s l => { s with watersheds := l }) S).1.watersheds
      = S.watersheds ++ internRecords (data.map col) := rfl

theorem column_bu_pres_ws (q d : Bool) (data : List Row) (col : Row → Option String)
    (mn ff : String) (S : Store) :
    (column_to_table q d data col mn ff Store.building_uses
      (fun s l => { s with building_uses := l }) S).1.watersheds = S.watersheds := by
  cases d <;> rfl

theorem tablesOKb_bu {row : Row} {bus wss : List String} (h : tablesOKb row bus wss = true)
    {v : String} (hv : row.building_use = some v) : normalize_name v ∈ bus := by
  simp only [tablesOKb, Bool.and_eq_true] at h
  obtain ⟨h1, _⟩ := h
  rw [hv] at h1
  simpa using h1

theorem tablesOKb_ws {row : Row} {bus wss : List String} (h : tablesOKb row bus wss = true)
    {v : String} (hv : row.watershed = some v) : normalize_name v ∈ wss := by
  simp only [tablesOKb, Bool.and_eq_true] at h
  obtain ⟨_, h2⟩ := h
  rw [hv] at h2
  simpa using h2

/-- C2 counterexample: on a store with no neighborhoods, a run with
the quiet flag set still emits the neighborhoods warning, because
printer.warning is not routed through Importer.print; so not every
warning line is suppressed by quiet mode. -/
theorem c2_quiet_counterexample :
    (runImporter false false true noResolve [] bareStore).2.1
      = [Line.warning "WARNING: Neighborhoods have not been imported."] := by
  decide

/-- C2 amended: the quiet flag suppresses every line routed through
the importer print method, which are exactly the progress lines, so a
quiet run emits only the stderr warning lines of the loud run; the
final store and any error are unchanged by the flag. -/
theorem c2_quiet_amended (o d : Bool) (r : String → Option String) (data : List Row)
    (S : Store) :
    (runImporter o d true r data S).1 = (runImporter o d false r data S).1 ∧
    (runImporter o d true r data S).2.2 = (runImporter o d false r data S).2.2 ∧
    (runImporter o d true r data S).2.1
      = ((runImporter o d false r data S).2.1).filter lineIsWarning := by
  have h1 : (overwriteStep o true d S).1 = (overwriteStep o false d S).1 :=
    overwriteStep_store_q o d S
  have h2 : (column_to_table true d data Row.building_use "BuildingUse" "building_use"
      Store.building_uses (fun s l => { s with building_uses := l })
      (overwriteStep o true d S).1).1
    = (column_to_table false d data Row.building_use "BuildingUse" "building_use"
      Store.building_uses (fun s l => { s with building_uses := l })
      (overwriteStep o false d S).1).1 := by
    rw [h1]
    cases d <;> rfl
  have h3 : (column_to_table true d data Row.watershed "Watershed" "watershed"
      Store.watersheds (fun s l => { s with watersheds := l })
      (column_to_table true d data Row.building_use "BuildingUse" "building_use"
        Store.building_uses (fun s l => { s with building_uses := l })
        (overwriteStep o true d S).1).1).1
    = (column_to_table false d data Row.watershed "Watershed" "watershed"
      Store.watersheds (fun s l => { s with watersheds := l })
      (column_to_table false d data Row.building_use "BuildingUse" "building_use"
        Store.building_uses (fun s l => { s with building_uses := l })
        (overwriteStep o false d S).1).1).1 := by
    rw [h2]
    cases d <;> rfl
  have h4 := insert_locations_quiet d r data
    (column_to_table false d data Row.watershed "Watershed" "watershed"
      Store.watersheds (fun s l => { s with watersheds := l })
      (column_to_table false d data Row.building_use "BuildingUse" "building_use"
        Store.building_uses (fun s l => { s with building_uses := l })
        (overwriteStep o false d S).1).1).1
  refine ⟨?_, ?_, ?_⟩
  · simp only [runImporter]
    rw [h3, h4]
  · simp only [runImporter]
    rw [h3, h4]
  · simp only [runImporter]
    rw [h3, h4]
    simp [List.filter_append, neighborhoodWarning_warn, overwriteStep_out_quiet,
      column_out_quiet1, column_out_nowarn, insert_locations_nowarn]

/-- C7 counterexample: against an empty store, a dry run aborts with
an unknown-choice error on the first building-use value while the
real run succeeds, because the dry run skips the categorical inserts
that its own location loader then reads back; so a dry run does not
report the same counts as a real run on every input. -/
theorem c7_dry_run_counterexample :
    (runImporter false true false noResolve [roofRow] freshStore).2.2
      = some (.badChoice "Office" "building_use" []) ∧
    (runImporter false false false noResolve [roofRow] freshStore).2.2 = none :=
  ⟨by decide, by decide⟩

/-- C7 amended: a dry run never mutates the store, and on inputs
whose categorical values are already present in the store (so that
the read-back lookup tables agree), it reports exactly the lines of
the real run with the DRY RUN prefix on the progress lines, and ends
with the same error or success; without that condition a dry run can
abort where the real run succeeds, since its lookups read the
unmutated store. -/
theorem c7_dry_run_amended (o q : Bool) (r : String → Option String) (data : List Row)
    (S : Store) :
    (runImporter o true q r data S).1 = S ∧
    ((∀ row ∈ data, tablesOKb row S.building_uses S.watersheds = true ∧
        row.building_use ≠ some "" ∧ row.watershed ≠ some "") →
      (runImporter o true q r data S).2.2 = (runImporter o false q r data S).2.2 ∧
      (runImporter o true q r data S).2.1
        = ((runImporter o false q r data S).2.1).map markDry) := by
  have ed : (column_to_table q true data Row.watershed "Watershed" "watershed"
      Store.watersheds (fun s l => { s with watersheds := l })
      (column_to_table q true data Row.building_use "BuildingUse" "building_use"
        Store.building_uses (fun s l => { s with building_uses := l })
        (overwriteStep o q true S).1).1).1 = S := by
    rw [column_store_dry, column_store_dry, overwriteStep_store_dry]
  constructor
  · simp only [runImporter]
    rw [insert_locations_store_dry, ed]
  · intro h
    have hTbu : (column_to_table q false data Row.watershed "Watershed" "watershed"
        Store.watersheds (fun s l => { s with watersheds := l })
        (column_to_table q false data Row.building_use "BuildingUse" "building_use"
          Store.building_uses (fun s l => { s with building_uses := l })
          (overwriteStep o q false S).1).1).1.building_uses
        = S.building_uses ++ internRecords (data.map Row.building_use) := by
      rw [column_ws_pres_bu, column_bu_real, overwriteStep_bu]
    have hTws : (column_to_table q false data Row.watershed "Watershed" "watershed"
        Store.watersheds (fun s l => { s with watersheds := l })
        (column_to_table q false data Row.building_use "BuildingUse" "building_use"
          Store.building_uses (fun s l => { s with building_uses := l })
          (overwriteStep o q false S).1).1).1.watersheds
        = (overwriteStep o q false S).1.watersheds
          ++ internRecords (data.map Row.watershed) := by
      rw [column_ws_real, column_bu_pres_ws]
    have hdry := insert_locations_dry q r data S
      (column_to_table q false data Row.watershed "Watershed" "watershed"
        Store.watersheds (fun s l => { s with watersheds := l })
        (column_to_table q false data Row.building_use "BuildingUse" "building_use"
          Store.building_uses (fun s l => { s with building_uses := l })
          (overwriteStep o q false S).1).1).1
      (by
        intro row hrow
        obtain ⟨hOK, hbune, hwsne⟩ := h row hrow
        refine ⟨fun v hv => ⟨tablesOKb_bu hOK hv, ?_⟩,
          fun v hv => ⟨tablesOKb_ws hOK hv, ?_⟩⟩
        · rw [hTbu]
          exact List.mem_append_left _ (tablesOKb_bu hOK hv)
        · rw [hTws]
          apply List.mem_append_right
          apply mem_internRecords_of_mem
          · rw [← hv]
            exact List.mem_map_of_mem Row.watershed hrow
          · intro he
            apply hwsne
            rw [hv, he])
    constructor
    · simp only [runImporter]
      rw [ed]
      exact hdry.2
    · simp only [runImporter]
      rw [ed, hdry.1, overwriteStep_out_dry,
        column_out_dry q data Row.building_use "BuildingUse" "building_use"
          Store.building_uses (fun s l => { s with building_uses := l })
          ((overwriteStep o q true S).1) ((overwriteStep o q false S).1),
        column_out_dry q data Row.watershed "Watershed" "watershed"
          Store.watersheds (fun s l => { s with watersheds := l })
          ((column_to_table q true data Row.building_use "BuildingUse" "building_use"
            Store.building_uses (fun s l => { s with building_uses := l })
            (overwriteStep o q true S).1).1)
          ((column_to_table q false data Row.building_use "BuildingUse" "building_use"
            Store.building_uses (fun s l => { s with building_uses := l })
            (overwriteStep o q false S).1).1)]
      simp [List.map_append, neighborhoodWarning_dry_fix]

/-- C7 amended, instantiated: on a store already holding the Office
building use, the dry run leaves the store untouched and ends with
the same result as the real run. -/
theorem c7_dry_run_amended_witness :
    (runImporter false true false noResolve [roofRow] officeStore).1 = officeStore ∧
    (runImporter false true false noResolve [roofRow] officeStore).2.2
      = (runImporter false false false noResolve [roofRow] officeStore).2.2 :=
  ⟨(c7_dry_run_amended false false noResolve [roofRow] officeStore).1,
   ((c7_dry_run_amended false false noResolve [roofRow] officeStore).2 (by decide)).1⟩

/-- C8: a real run with the overwrite flag behaves exactly as if the
Location and Watershed tables had been empty from the start, so every
pre-existing record of those two tables is gone before any insert,
while the BuildingUse table keeps its pre-existing records, only
extended by the newly interned values. -/
theorem c8_overwrite_policy (q : Bool) (r : String → Option String) (data : List Row)
    (S : Store) :
    runImporter true false q r data S
      = runImporter true false q r data { S with locations := [], watersheds := [] } ∧
    ∃ new, (runImporter true false q r data S).1.building_uses = S.building_uses ++ new := by
  constructor
  · rcases S with ⟨ls, bu, ws, nb⟩
    rfl
  · refine ⟨internRecords (data.map Row.building_use), ?_⟩
    simp only [runImporter]
    rw [insert_locations_bu, column_ws_pres_bu, column_bu_real, overwriteStep_bu]
